import Mathlib

/-!
Verification of the plugin-management module (`lib/charms/layer/jenkins/plugins.py`)
of the jenkins charm.  The module's own logic (dependency-closure planning,
compatibility exclusion, install decisions, unlisted-file reconciliation,
plugin-file removal, construction-time plugin-site checking) is embedded as
executable Lean definitions.  External collaborators that are not part of this
module's source (the `jenkins_plugin_manager` UpdateCenter, the charm `Api`
class, `hookenv` configuration, the filesystem) are modelled as oracle fields
of an environment record, following the specification's description of them.
-/

set_option maxRecDepth 4000

/-- The plugins that are required for Jenkins to work (`REQUIRED_PLUGINS`). -/
def REQUIRED_PLUGINS : List String := ["instance-identity"]

/-- Modelled from the spec: the fixed plugin directory (`paths.PLUGINS`); the
`paths` module is not part of this source file, only the fixed path constant
matters. -/
def PLUGINS_DIR : String := "/var/lib/jenkins/plugins"

/-- The default plugins-site configuration value special-cased in `__init__`. -/
def DEFAULT_PLUGINS_SITE : String := "https://updates.jenkins-ci.org/latest/"

/-- Split a character list at every character satisfying `p`, keeping the
(possibly empty) pieces. -/
def splitChars (p : Char → Bool) : List Char → List (List Char)
  | [] => [[]]
  | c :: cs =>
    let r := splitChars p cs
    if p c then [] :: r
    else
      match r with
      | [] => [[c]]
      | h :: t => (c :: h) :: t

/-- Python `str.split()` with no argument: split on whitespace runs,
discarding empty pieces. -/
def pySplit (s : String) : List String :=
  ((splitChars Char.isWhitespace s.data).map String.mk).filter (fun t => t != "")

/-- Python truthiness test `not plugin_version` for an optional string
(`None` and the empty string are falsy). -/
def pyFalsy : Option String → Bool
  | none => true
  | some s => s == ""

/-- Python `x.startswith(t)` on character lists. -/
def pyStartsWith (x t : String) : Bool := t.data.isPrefixOf x.data

/-- Python `x.endswith(t)` on character lists. -/
def pyEndsWith (x t : String) : Bool := t.data.isSuffixOf x.data

/-- A single-quote character, used by Python `str()` of a list of strings. -/
def pyQuote : String := String.mk [Char.ofNat 39]

/-- Python `str()` of a list of strings, as produced by `"{}".format(x)` when
`x` is a list: elements are repr-quoted and joined with a comma and space
inside square brackets. -/
def pyStrOfList (l : List String) : String :=
  "[" ++ String.intercalate ", " (l.map (fun s => pyQuote ++ s ++ pyQuote)) ++ "]"

/-- Drop the first `n` characters of a string. -/
def strDropChars (x : String) (n : Nat) : String := String.mk (x.data.drop n)

/-- Boolean lexicographic comparison of character lists (by code point). -/
def strLexLeb : List Char → List Char → Bool
  | [], _ => true
  | _ :: _, [] => false
  | a :: as, b :: bs => if a = b then strLexLeb as bs else decide (a.toNat < b.toNat)

/-- The lexicographic order on strings used to enumerate finite sets of
names canonically. -/
def strLe (x y : String) : Prop := strLexLeb x.data y.data = true

instance : DecidableRel strLe := fun x y =>
  inferInstanceAs (Decidable (strLexLeb x.data y.data = true))

theorem strLexLeb_trans : ∀ as bs cs, strLexLeb as bs = true → strLexLeb bs cs = true →
    strLexLeb as cs = true
  | [], _, _, _, _ => rfl
  | _ :: _, [], _, h1, _ => by simp [strLexLeb] at h1
  | _ :: _, _ :: _, [], _, h2 => by simp [strLexLeb] at h2
  | a :: as, b :: bs, c :: cs, h1, h2 => by
    simp only [strLexLeb] at h1 h2 ⊢
    by_cases hab : a = b
    · subst hab
      by_cases hbc : a = c
      · subst hbc
        simp only [if_pos rfl] at h1 h2 ⊢
        exact strLexLeb_trans as bs cs (by simpa using h1) (by simpa using h2)
      · rw [if_pos rfl] at h1
        rw [if_neg hbc] at h2 ⊢
        exact h2
    · rw [if_neg hab] at h1
      by_cases hbc : b = c
      · subst hbc
        rw [if_neg hab]
        exact h1
      · rw [if_neg hbc] at h2
        have hlt1 : a.toNat < b.toNat := by simpa using h1
        have hlt2 : b.toNat < c.toNat := by simpa using h2
        have hac : a ≠ c := by
          intro h
          subst h
          omega
        rw [if_neg hac]
        simp only [decide_eq_true_eq]
        omega

theorem strLexLeb_antisymm : ∀ as bs, strLexLeb as bs = true → strLexLeb bs as = true →
    as = bs
  | [], [], _, _ => rfl
  | [], _ :: _, _, h2 => by simp [strLexLeb] at h2
  | _ :: _, [], h1, _ => by simp [strLexLeb] at h1
  | a :: as, b :: bs, h1, h2 => by
    simp only [strLexLeb] at h1 h2
    by_cases hab : a = b
    · subst hab
      simp only [if_pos rfl] at h1 h2
      rw [strLexLeb_antisymm as bs h1 h2]
    · rw [if_neg hab] at h1
      rw [if_neg (fun h => hab h.symm)] at h2
      have hlt1 : a.toNat < b.toNat := by simpa using h1
      have hlt2 : b.toNat < a.toNat := by simpa using h2
      omega

theorem strLexLeb_total : ∀ as bs, strLexLeb as bs = true ∨ strLexLeb bs as = true
  | [], _ => Or.inl rfl
  | _ :: _, [] => Or.inr rfl
  | a :: as, b :: bs => by
    simp only [strLexLeb]
    by_cases hab : a = b
    · subst hab
      simp only [if_pos rfl]
      exact strLexLeb_total as bs
    · rw [if_neg hab, if_neg (fun h => hab h.symm)]
      simp only [decide_eq_true_eq]
      have : a.toNat ≠ b.toNat := fun h => hab (Char.ext (UInt32.ext h))
      omega

instance : IsTrans String strLe :=
  ⟨fun a b c => strLexLeb_trans a.data b.data c.data⟩

instance : IsAntisymm String strLe :=
  ⟨fun a b h1 h2 => by
    cases a
    cases b
    exact congrArg String.mk (strLexLeb_antisymm _ _ h1 h2)⟩

instance : IsTotal String strLe :=
  ⟨fun a b => strLexLeb_total a.data b.data⟩

/-- A computable enumeration of a finite set of names as a list (the source
works with Python lists; the embedding's set abstraction fixes a canonical
order). -/
def finsetToList (s : Finset String) : List String :=
  Quot.liftOn s.val (fun l => l.insertionSort strLe)
    (fun l1 l2 h => List.eq_of_perm_of_sorted
      (((List.perm_insertionSort _ l1).trans h).trans (List.perm_insertionSort _ l2).symm)
      (List.sorted_insertionSort _ l1) (List.sorted_insertionSort _ l2))

theorem mem_finsetToList {p : String} {s : Finset String} :
    p ∈ finsetToList s ↔ p ∈ s := by
  rcases s with ⟨m, nd⟩
  induction m using Quotient.inductionOn with
  | h l =>
    show p ∈ l.insertionSort strLe ↔ _
    rw [(List.perm_insertionSort strLe l).mem_iff]
    simp [Finset.mem_mk]

/-- Modelled from the spec: the oracles for the external collaborators used by
the `Plugins` class.  `get_plugins` is the UpdateCenter's dependency-expansion
oracle (`uc.get_plugins`), acting on sets of package names per the spec's
Dependency Expander contract; `check_min_core_version` is
`UpdateCenter._check_min_core_version`; `requiredCore` and `latest_version`
are the two fields of `uc.get_plugin_data(plugin)` read by the module;
`jenkins_version` is `Api().version()`; `get_plugin_version` is
`Api().get_plugin_version(plugin)` (`none` meaning not installed);
`download_ok` tells whether `uc.download_plugin` succeeds for a name; the
remaining fields are the `hookenv.config()` values read by the module. -/
structure Env where
  get_plugins : Finset String → Finset String
  check_min_core_version : String → String → Bool
  requiredCore : String → String
  latest_version : String → String
  jenkins_version : String
  get_plugin_version : String → Option String
  download_ok : String → Bool
  config_plugins : String
  remove_unlisted_plugins : String
  plugins_auto_update : Bool

/-- `Plugins._exclude_incompatible_plugins`: collect into `excluded_plugins`
every plugin whose required core version fails the minimum-version check
against the running jenkins version, then keep the plugins not in that list;
returns `(kept, excluded_plugins)`. -/
def exclude_incompatible_plugins (env : Env) (plugins : List String) :
    List String × List String :=
  let excluded_plugins := plugins.filter
    (fun plugin => !(env.check_min_core_version env.jenkins_version (env.requiredCore plugin)))
  (plugins.filter (fun plugin => !(excluded_plugins.contains plugin)), excluded_plugins)

/-- `Plugins._get_plugins_to_install`: ask the update center for the plugins
plus their dependencies; if nothing changed, the set is a fixed point and is
passed to `_exclude_incompatible_plugins`, otherwise recurse on the expanded
set.  The source recursion carries no bound; the embedding makes the number of
remaining recursive calls explicit as `fuel` (`none` = the bound was hit). -/
def get_plugins_to_install (env : Env) : Nat → Finset String → Option (List String × List String)
  | 0, _ => none
  | n + 1, plugins =>
    let plugins_and_dependencies := env.get_plugins plugins
    if plugins = plugins_and_dependencies then
      some (exclude_incompatible_plugins env (finsetToList plugins))
    else
      get_plugins_to_install env n plugins_and_dependencies

/-- Modelled from the spec: a successful `uc.download_plugin(plugin, PLUGINS,
with_version=False)` places the package file in the plugin directory and
returns its path; a failed download returns a falsy value and places nothing. -/
def download_plugin (env : Env) (plugin : String) : String :=
  if env.download_ok plugin then PLUGINS_DIR ++ "/" ++ plugin ++ ".jpi" else ""

/-- The path at which a successful download places a plugin file. -/
def pluginPath (plugin : String) : String := PLUGINS_DIR ++ "/" ++ plugin ++ ".jpi"

/-- `Plugins._install_plugin`: if the plugin is not installed (falsy installed
version), or auto-update is on and the installed version differs from the
index's latest version, download it (returning the download result);
otherwise skip (return `none`, the Python implicit `None`). -/
def install_plugin (env : Env) (plugin : String) (update : Bool) : Option String :=
  let plugin_version := env.get_plugin_version plugin
  if pyFalsy plugin_version ||
      (update && !(plugin_version == some (env.latest_version plugin))) then
    some (download_plugin env plugin)
  else
    none

/-- The effect of `Plugins._install_plugins` on the set of files in the plugin
directory: each plugin is passed to `_install_plugin`; a successful download
places its file, a skip or failed download changes nothing. -/
def install_plugins (env : Env) (plugins : List String) (files : Finset String) :
    Finset String :=
  plugins.foldl (fun acc plugin =>
    match install_plugin env plugin env.plugins_auto_update with
    | some path => if path != "" then insert path acc else acc
    | none => acc) files

/-- The filesystem state visible to this module: the set of regular files and
the set of directories. -/
structure FS where
  files : Finset String
  dirs : Finset String

instance : DecidableEq FS := fun a b =>
  if h1 : a.files = b.files then
    if h2 : a.dirs = b.dirs then
      Decidable.isTrue (by cases a; cases b; cases h1; cases h2; rfl)
    else Decidable.isFalse (fun hh => h2 (congrArg FS.dirs hh))
  else Decidable.isFalse (fun hh => h1 (congrArg FS.files hh))

instance {ε α : Type} [DecidableEq ε] [DecidableEq α] : DecidableEq (Except ε α) := fun a b =>
  match a, b with
  | Except.error e, Except.error f =>
    if h : e = f then Decidable.isTrue (congrArg Except.error h)
    else Decidable.isFalse (fun hh => h (Except.error.inj hh))
  | Except.ok x, Except.ok y =>
    if h : x = y then Decidable.isTrue (congrArg Except.ok h)
    else Decidable.isFalse (fun hh => h (Except.ok.inj hh))
  | Except.error _, Except.ok _ => Decidable.isFalse (fun hh => Except.noConfusion hh)
  | Except.ok _, Except.error _ => Decidable.isFalse (fun hh => Except.noConfusion hh)

/-- Python `os.path.isfile`. -/
def os_path_isfile (fs : FS) (path : String) : Bool := decide (path ∈ fs.files)

/-- Python `os.remove`: deletes a regular file; raises `IsADirectoryError` on
a directory and `FileNotFoundError` on a missing path. -/
def os_remove (fs : FS) (path : String) : Except String FS :=
  if path ∈ fs.files then Except.ok (FS.mk (fs.files.erase path) fs.dirs)
  else if path ∈ fs.dirs then Except.error "IsADirectoryError"
  else Except.error "FileNotFoundError"

/-- `Plugins._remove_plugin`: return silently unless the path is an existing
regular file, otherwise delete it. -/
def remove_plugin (fs : FS) (path : String) : Except String FS :=
  if !(os_path_isfile fs path) then Except.ok fs
  else os_remove fs path

/-- `Plugins._remove_plugins`: remove each of the given paths in turn;
an exception from a step would propagate. -/
def remove_plugins (fs : FS) (paths : List String) : Except String FS :=
  paths.foldlM remove_plugin fs

/-- The glob pattern `"%s/*.[h|j]pi" % paths.PLUGINS`: a file directly inside
the plugin directory, not starting with a dot (glob `*` skips hidden files),
whose extension is `.hpi`, `.jpi` or `.|pi` (the character class `[h|j]`
also matches the bar). -/
def glob_match_plugin_file (x : String) : Bool :=
  pyStartsWith x (PLUGINS_DIR ++ "/") &&
    (let rest := strDropChars x (PLUGINS_DIR ++ "/").data.length
     !(pyStartsWith rest ".") && !(rest.data.contains (Char.ofNat 47)) &&
       (pyEndsWith rest ".hpi" || pyEndsWith rest ".jpi" || pyEndsWith rest ".|pi"))

/-- Line 88 of the source: `configured_plugins` is the *pair* returned by
`_get_plugins_to_install` (it is not destructured there, unlike line 73), so
`map` iterates over the two component lists and `"/{}.jpi".format(x)`
stringifies each whole list. -/
def plugin_file_names (configured_plugins : List String × List String) : List String :=
  [pyStrOfList configured_plugins.1, pyStrOfList configured_plugins.2].map
    (fun x => "/" ++ x ++ ".jpi")

/-- Line 72 of the source: `itertools.chain(REQUIRED_PLUGINS, (plugins or "").split())`;
`None` and the empty string both contribute no extra names. -/
def install_requested (plugins : Option String) : List String :=
  REQUIRED_PLUGINS ++ pySplit (Option.getD plugins "")

/-- `Plugins.install`: plan the requested plugins (required plugins prepended)
to a `(compatible, incompatible)` pair; separately plan the *configured*
plugins list; snapshot the plugin files present before installing; run the
downloads; compute `installed_plugins` as the snapshot files ending in one of
`plugin_file_names` and `unlisted_plugins` as the rest; when there are
unlisted files and `remove-unlisted-plugins` is `"yes"` delete them (otherwise
only log); return `(installed_plugins, incompatible_plugins)` together with
the final filesystem.  The outer `Option` is the recursion fuel of the two
planning calls; the `Except` carries a propagating exception. -/
def install (env : Env) (fuel : Nat) (plugins_arg : Option String) (fs0 : FS) :
    Option (Except String ((Finset String × List String) × FS)) :=
  match get_plugins_to_install env fuel (install_requested plugins_arg).toFinset with
  | none => none
  | some (plugins, incompatible_plugins) =>
    match get_plugins_to_install env fuel (pySplit env.config_plugins).toFinset with
    | none => none
    | some configured_plugins =>
      let fsm := FS.mk fs0.files (insert PLUGINS_DIR fs0.dirs)
      let existing_plugins := fsm.files.filter (fun x => glob_match_plugin_file x)
      let fs1 := FS.mk (install_plugins env plugins fsm.files) fsm.dirs
      let pfn := plugin_file_names configured_plugins
      let installed_plugins := existing_plugins.filter (fun x => pfn.any (fun t => pyEndsWith x t))
      let unlisted_plugins := existing_plugins \ installed_plugins
      if unlisted_plugins ≠ ∅ then
        if env.remove_unlisted_plugins = "yes" then
          match remove_plugins fs1 (finsetToList unlisted_plugins) with
          | Except.ok fs2 => some (Except.ok ((installed_plugins, incompatible_plugins), fs2))
          | Except.error e => some (Except.error e)
        else some (Except.ok ((installed_plugins, incompatible_plugins), fs1))
      else some (Except.ok ((installed_plugins, incompatible_plugins), fs1))

/-- The outcome of `Plugins.__init__`'s plugin-site handling.  `urlopen`
abstracts `urllib.request.urlopen` on the manifest URL: it either succeeds,
raises `urllib.error.HTTPError` (the only exception caught, turned into
`PluginSiteError`), or raises some other error such as a connection-level
`urllib.error.URLError`, which the source does not catch. -/
inductive UrlFetch
  | ok
  | httpError
  | otherError
deriving DecidableEq

/-- The observable result of constructing `Plugins`. -/
inductive InitOutcome
  | defaultCenter
  | customCenter (url : String)
  | pluginSiteError
  | uncaughtError
deriving DecidableEq

/-- Lines 55-64 of the source: the default plugins-site uses the pre-built
update center with no check; otherwise the manifest URL is fetched, an
`HTTPError` becomes `PluginSiteError`, and any other fetch error propagates
uncaught. -/
def plugins_init (plugins_site : String) (urlopen : String → UrlFetch) : InitOutcome :=
  if plugins_site = DEFAULT_PLUGINS_SITE then InitOutcome.defaultCenter
  else
    match urlopen (plugins_site ++ "/update-center.json") with
    | UrlFetch.ok => InitOutcome.customCenter (plugins_site ++ "/update-center.json")
    | UrlFetch.httpError => InitOutcome.pluginSiteError
    | UrlFetch.otherError => InitOutcome.uncaughtError

/-! ## General lemmas about the embedded operations -/

theorem exclude_incompatible_snd_mem (env : Env) (plugins : List String) (x : String) :
    x ∈ (exclude_incompatible_plugins env plugins).2 ↔
      x ∈ plugins ∧
        env.check_min_core_version env.jenkins_version (env.requiredCore x) = false := by
  simp [exclude_incompatible_plugins, List.mem_filter]

theorem exclude_incompatible_fst_mem (env : Env) (plugins : List String) (x : String) :
    x ∈ (exclude_incompatible_plugins env plugins).1 ↔
      x ∈ plugins ∧
        env.check_min_core_version env.jenkins_version (env.requiredCore x) = true := by
  simp [exclude_incompatible_plugins, List.mem_filter]
  tauto

theorem exclude_incompatible_disjoint (env : Env) (plugins : List String) (x : String)
    (hx : x ∈ (exclude_incompatible_plugins env plugins).1) :
    x ∉ (exclude_incompatible_plugins env plugins).2 := by
  rw [exclude_incompatible_fst_mem] at hx
  rw [exclude_incompatible_snd_mem]
  intro hmem
  rw [hx.2] at hmem
  exact absurd hmem.2 (by simp)

theorem exclude_incompatible_exhaustive (env : Env) (plugins : List String) (x : String)
    (hx : x ∈ plugins) :
    x ∈ (exclude_incompatible_plugins env plugins).1 ∨
      x ∈ (exclude_incompatible_plugins env plugins).2 := by
  rw [exclude_incompatible_fst_mem, exclude_incompatible_snd_mem]
  cases hchk : env.check_min_core_version env.jenkins_version (env.requiredCore x) with
  | true => exact Or.inl ⟨hx, rfl⟩
  | false => exact Or.inr ⟨hx, rfl⟩

theorem expand_reaches_fixpoint (env : Env) (U : Finset String)
    (hmono : ∀ t, t ⊆ U → t ⊆ env.get_plugins t)
    (hbound : ∀ t, t ⊆ U → env.get_plugins t ⊆ U) :
    ∀ fuel s, s ⊆ U → U.card - s.card < fuel →
      ∃ r : Finset String, env.get_plugins r = r ∧ s ⊆ r ∧ r ⊆ U ∧
        get_plugins_to_install env fuel s =
          some (exclude_incompatible_plugins env (finsetToList r)) := by
  intro fuel
  induction fuel with
  | zero =>
    intro s _ h
    exact absurd h (Nat.not_lt_zero _)
  | succ n ih =>
    intro s hsU hlt
    by_cases heq : s = env.get_plugins s
    · refine ⟨s, heq.symm, Finset.Subset.refl s, hsU, ?_⟩
      simp only [get_plugins_to_install]
      rw [if_pos heq]
    · have hsub : s ⊆ env.get_plugins s := hmono s hsU
      have hb : env.get_plugins s ⊆ U := hbound s hsU
      have hcard : s.card < (env.get_plugins s).card :=
        Finset.card_lt_card (lt_of_le_of_ne hsub heq)
      have hcard2 : (env.get_plugins s).card ≤ U.card := Finset.card_le_card hb
      obtain ⟨r, h1, h2, h3, h4⟩ := ih (env.get_plugins s) hb (by omega)
      refine ⟨r, h1, hsub.trans h2, h3, ?_⟩
      simp only [get_plugins_to_install]
      rw [if_neg heq]
      exact h4

theorem get_plugins_to_install_shape (env : Env) :
    ∀ fuel s out, get_plugins_to_install env fuel s = some out →
      ∃ r : Finset String, out = exclude_incompatible_plugins env (finsetToList r) := by
  intro fuel
  induction fuel with
  | zero =>
    intro s out h
    simp [get_plugins_to_install] at h
  | succ n ih =>
    intro s out h
    simp only [get_plugins_to_install] at h
    by_cases heq : s = env.get_plugins s
    · rw [if_pos heq] at h
      exact ⟨s, (Option.some.inj h).symm⟩
    · rw [if_neg heq] at h
      exact ih (env.get_plugins s) out h

theorem install_plugins_subset (env : Env) (plugins : List String) (files : Finset String) :
    files ⊆ install_plugins env plugins files := by
  induction plugins generalizing files with
  | nil => exact Finset.Subset.refl _
  | cons p rest ih =>
    have hstep : files ⊆ (match install_plugin env p env.plugins_auto_update with
        | some path => if path != "" then insert path files else files
        | none => files) := by
      cases install_plugin env p env.plugins_auto_update with
      | none => exact Finset.Subset.refl _
      | some path =>
        cases hB : (path != "") with
        | true => simp only [if_pos hB]; exact Finset.subset_insert _ _
        | false => simp only [hB, Bool.false_eq_true, if_false]; exact Finset.Subset.refl _
    refine Finset.Subset.trans hstep ?_
    simpa only [install_plugins, List.foldl_cons] using
      ih (match install_plugin env p env.plugins_auto_update with
        | some path => if path != "" then insert path files else files
        | none => files)

theorem remove_plugin_ok (fs : FS) (path : String) :
    remove_plugin fs path = Except.ok (FS.mk (fs.files.erase path) fs.dirs) := by
  by_cases h : path ∈ fs.files
  · simp [remove_plugin, os_path_isfile, os_remove, h]
  · simp [remove_plugin, os_path_isfile, os_remove, h, Finset.erase_eq_of_not_mem h]

theorem remove_plugins_ok (paths : List String) : ∀ fs : FS,
    ∃ fs1 : FS, remove_plugins fs paths = Except.ok fs1 ∧ fs1.dirs = fs.dirs ∧
      ∀ q, q ∈ fs1.files ↔ q ∈ fs.files ∧ q ∉ paths := by
  induction paths with
  | nil =>
    intro fs
    exact ⟨fs, rfl, rfl, by simp⟩
  | cons p rest ih =>
    intro fs
    obtain ⟨fs1, h1, h2, h3⟩ := ih (FS.mk (fs.files.erase p) fs.dirs)
    refine ⟨fs1, ?_, h2, ?_⟩
    · show (p :: rest).foldlM remove_plugin fs = Except.ok fs1
      rw [List.foldlM_cons, remove_plugin_ok]
      simpa [remove_plugins] using h1
    · intro q
      rw [h3 q]
      simp only [Finset.mem_erase, List.mem_cons]
      tauto

/-! ## Concrete environments and filesystems used to instantiate theorems -/

/-- A concrete environment whose index oracle adds the single dependency
`"a"` to every queried set. -/
def envW : Env := Env.mk (fun t => t ∪ {"a"}) (fun _ _ => true) (fun _ => "") (fun _ => "")
  "" (fun _ => none) (fun _ => true) "" "no" false

/-- A concrete environment with a dependency-free index, a configured plugin
list `"git"`, every plugin compatible and not yet installed, and removal of
unlisted plugins disabled. -/
def envScenNo : Env := Env.mk (fun t => t) (fun _ _ => true) (fun _ => "") (fun _ => "")
  "" (fun _ => none) (fun _ => true) "git" "no" false

/-- The same environment as `envScenNo` with removal of unlisted plugins
enabled. -/
def envScenYes : Env := Env.mk (fun t => t) (fun _ _ => true) (fun _ => "") (fun _ => "")
  "" (fun _ => none) (fun _ => true) "git" "yes" false

/-- A plugin directory holding the files `unused.jpi` and `git.jpi`. -/
def fsScen : FS := FS.mk {pluginPath "unused", pluginPath "git"} ∅

/-! ## The claims -/

/-- C1: the dependency expansion of `_get_plugins_to_install` terminates for
every requested plugin set: if the index oracle `uc.get_plugins` draws names
from a finite universe `U` and returns a superset of its input, the recursion
reaches a fixed point `r` within `U.card + 1` calls and returns it (passed
through the compatibility exclusion, as the source does). -/
theorem c1_dependency_expansion_terminates (env : Env) (U s : Finset String)
    (hmono : ∀ t, t ⊆ U → t ⊆ env.get_plugins t)
    (hbound : ∀ t, t ⊆ U → env.get_plugins t ⊆ U)
    (hsU : s ⊆ U) :
    ∃ r : Finset String, env.get_plugins r = r ∧ s ⊆ r ∧ r ⊆ U ∧
      get_plugins_to_install env (U.card + 1) s =
        some (exclude_incompatible_plugins env (finsetToList r)) :=
  expand_reaches_fixpoint env U hmono hbound (U.card + 1) s hsU (by omega)

theorem c1_witness :
    ∃ r : Finset String, envW.get_plugins r = r ∧ ({"b"} : Finset String) ⊆ r ∧
      r ⊆ {"a", "b"} ∧
      get_plugins_to_install envW (Finset.card ({"a", "b"} : Finset String) + 1) {"b"} =
        some (exclude_incompatible_plugins envW (finsetToList r)) :=
  c1_dependency_expansion_terminates envW {"a", "b"} {"b"}
    (fun t _ => fun x hx => Finset.mem_union_left _ hx)
    (fun t ht => Finset.union_subset ht (by decide))
    (by decide)

/-- C2: for every requested plugin set, the two lists returned by planning
(`_get_plugins_to_install`, whose result pair is produced by
`_exclude_incompatible_plugins`) are disjoint: no name is both planned for
install and excluded as incompatible. -/
theorem c2_plan_lists_disjoint (env : Env) (fuel : Nat) (s : Finset String)
    (to_install excluded : List String)
    (h : get_plugins_to_install env fuel s = some (to_install, excluded)) :
    ∀ x, x ∈ to_install → x ∉ excluded := by
  obtain ⟨r, hr⟩ := get_plugins_to_install_shape env fuel s _ h
  have hfst : to_install = (exclude_incompatible_plugins env (finsetToList r)).1 :=
    congrArg Prod.fst hr
  have hsnd : excluded = (exclude_incompatible_plugins env (finsetToList r)).2 :=
    congrArg Prod.snd hr
  intro x hx
  rw [hfst] at hx
  rw [hsnd]
  exact exclude_incompatible_disjoint env _ x hx

theorem c2_witness : "a" ∉ ([] : List String) :=
  c2_plan_lists_disjoint envW 1 {"a"} ["a"] [] (by decide) "a" (by decide)

/-- C3: every required plugin (`REQUIRED_PLUGINS`) appears in the union of the
to-install and excluded lists computed by `install`'s planning step
(`_get_plugins_to_install` applied to the chained required-plus-argument
list), whatever the user-supplied argument. -/
theorem c3_required_plugins_planned (env : Env) (U : Finset String) (arg : Option String)
    (hmono : ∀ t, t ⊆ U → t ⊆ env.get_plugins t)
    (hbound : ∀ t, t ⊆ U → env.get_plugins t ⊆ U)
    (hreq : (install_requested arg).toFinset ⊆ U) :
    ∃ to_install excluded,
      get_plugins_to_install env (U.card + 1) (install_requested arg).toFinset =
        some (to_install, excluded) ∧
      ∀ p, p ∈ REQUIRED_PLUGINS → p ∈ to_install ∨ p ∈ excluded := by
  obtain ⟨r, hfix, hsub, hrU, hrun⟩ :=
    expand_reaches_fixpoint env U hmono hbound (U.card + 1) _ hreq (by omega)
  refine ⟨(exclude_incompatible_plugins env (finsetToList r)).1,
    (exclude_incompatible_plugins env (finsetToList r)).2, ?_, ?_⟩
  · rw [hrun]
  · intro p hp
    have hp1 : p ∈ install_requested arg := by
      unfold install_requested
      exact List.mem_append_left _ hp
    have hp2 : p ∈ (install_requested arg).toFinset := List.mem_toFinset.mpr hp1
    have hp3 : p ∈ finsetToList r := mem_finsetToList.mpr (hsub hp2)
    exact exclude_incompatible_exhaustive env _ p hp3

theorem c3_witness :
    ∃ to_install excluded,
      get_plugins_to_install envW
          (Finset.card ({"a", "instance-identity"} : Finset String) + 1)
          (install_requested none).toFinset = some (to_install, excluded) ∧
      ∀ p, p ∈ REQUIRED_PLUGINS → p ∈ to_install ∨ p ∈ excluded :=
  c3_required_plugins_planned envW {"a", "instance-identity"} none
    (fun t _ => fun x hx => Finset.mem_union_left _ hx)
    (fun t ht => Finset.union_subset ht (by decide))
    (by decide)

/-- C4 (scenario from the spec): the plugin directory contains `unused.jpi`,
the configured plugin list is `git` whose resolved-compatible closure
`["git"]` does not contain `unused`; running `install` with
`remove-unlisted-plugins = "yes"` deletes `unused.jpi`, and with `"no"` the
file is still present afterwards. -/
theorem c4_unlisted_removal_scenario :
    ("unused" ∉ ["git"] ∧
      get_plugins_to_install envScenYes 1 (pySplit envScenYes.config_plugins).toFinset =
        some (["git"], [])) ∧
    install envScenYes 1 none fsScen = some (Except.ok ((∅, []),
      FS.mk {pluginPath "instance-identity"} {PLUGINS_DIR})) ∧
    pluginPath "unused" ∉ ({pluginPath "instance-identity"} : Finset String) ∧
    install envScenNo 1 none fsScen = some (Except.ok ((∅, []),
      FS.mk (insert (pluginPath "instance-identity")
        {pluginPath "unused", pluginPath "git"}) {PLUGINS_DIR})) ∧
    pluginPath "unused" ∈
      insert (pluginPath "instance-identity")
        ({pluginPath "unused", pluginPath "git"} : Finset String) :=
  ⟨⟨by decide, by decide⟩, rfl, by decide, rfl, by decide⟩

/-- C5 (failing input for the claim that `install` returns the set of plugin
files now present): with `unused.jpi` and `git.jpi` on disk, configured
plugins `git`, nothing installed and every download succeeding, `install`
downloads `instance-identity.jpi`, leaves all three files present, yet
returns `∅` as its first component: the snapshot is taken before the
downloads and is filtered by suffix strings built from the two lists of the
undestructured pair `configured_plugins`, which no file path ever ends
with. -/
theorem c5_install_return_value_bug :
    install envScenNo 1 none fsScen = some (Except.ok ((∅, []),
      FS.mk (insert (pluginPath "instance-identity")
        {pluginPath "unused", pluginPath "git"}) {PLUGINS_DIR})) ∧
    pluginPath "git" ∈ insert (pluginPath "instance-identity")
      ({pluginPath "unused", pluginPath "git"} : Finset String) ∧
    pluginPath "instance-identity" ∈ insert (pluginPath "instance-identity")
      ({pluginPath "unused", pluginPath "git"} : Finset String) ∧
    pluginPath "git" ∉ (∅ : Finset String) :=
  ⟨rfl, by decide, by decide, by decide⟩

/-- C6: when `remove-unlisted-plugins` is not `"yes"`, `install` removes no
file: every file present before the call is still present in the returned
filesystem (the unlisted-reconciliation step only logs). -/
theorem c6_no_removal_when_flag_disabled (env : Env) (fuel : Nat) (arg : Option String)
    (fs0 : FS) (res : Finset String × List String) (fs1 : FS)
    (hflag : env.remove_unlisted_plugins ≠ "yes")
    (hrun : install env fuel arg fs0 = some (Except.ok (res, fs1))) :
    fs0.files ⊆ fs1.files := by
  simp only [install] at hrun
  split at hrun
  · exact Option.noConfusion hrun
  · split at hrun
    · exact Option.noConfusion hrun
    · rw [if_neg hflag, ite_self] at hrun
      simp only [Option.some.injEq, Except.ok.injEq, Prod.mk.injEq] at hrun
      rw [← hrun.2]
      exact install_plugins_subset env _ fs0.files

theorem c6_witness :
    pluginPath "unused" ∈
      (FS.mk (insert (pluginPath "instance-identity")
        {pluginPath "unused", pluginPath "git"}) {PLUGINS_DIR}).files :=
  c6_no_removal_when_flag_disabled envScenNo 1 none fsScen (∅, [])
    (FS.mk (insert (pluginPath "instance-identity")
      {pluginPath "unused", pluginPath "git"}) {PLUGINS_DIR})
    (by decide) rfl (by decide)

/-- C7: `_install_plugin` downloads and places the package exactly when the
Host Admin API reports the plugin as not installed (a falsy installed
version: absent or empty), or auto-update is enabled and the installed
version differs from the index's latest version; otherwise it skips. -/
theorem c7_install_decision_iff (env : Env) (plugin : String) (update : Bool) :
    (∃ result, install_plugin env plugin update = some result) ↔
      (env.get_plugin_version plugin = none ∨ env.get_plugin_version plugin = some "" ∨
        (update = true ∧
          env.get_plugin_version plugin ≠ some (env.latest_version plugin))) := by
  cases hv : env.get_plugin_version plugin with
  | none => simp [install_plugin, pyFalsy, hv]
  | some v =>
    by_cases hve : v = ""
    · subst hve
      simp [install_plugin, pyFalsy, hv]
    · cases update with
      | false => simp [install_plugin, pyFalsy, hv, hve]
      | true =>
        by_cases hlat : v = env.latest_version plugin
        · simp only [install_plugin, pyFalsy, hv, ← hlat]
          simp [hve]
        · simp [install_plugin, pyFalsy, hv, hve, hlat]

/-- C8 (counterexample): a non-default plugins-site whose manifest fetch
fails with a connection-level error (not an HTTP error response) does not
produce `PluginSiteError`: the exception propagates uncaught, refuting
"any such unreachability at construction time is surfaced as
PluginSiteError". -/
theorem c8_counterexample :
    plugins_init "http://index.example" (fun _ => UrlFetch.otherError) ≠
      InitOutcome.pluginSiteError := by decide

/-- C8 (amended): construction fails with `PluginSiteError` exactly when the
plugins-site is not the default one and fetching its `update-center.json`
manifest raises an HTTP error response; the default site is never checked and
any other fetch failure propagates unchanged. -/
theorem c8_plugin_site_error_iff (plugins_site : String) (urlopen : String → UrlFetch) :
    plugins_init plugins_site urlopen = InitOutcome.pluginSiteError ↔
      (plugins_site ≠ DEFAULT_PLUGINS_SITE ∧
        urlopen (plugins_site ++ "/update-center.json") = UrlFetch.httpError) := by
  by_cases hd : plugins_site = DEFAULT_PLUGINS_SITE
  · simp [plugins_init, hd]
  · cases hu : urlopen (plugins_site ++ "/update-center.json") with
    | ok => simp [plugins_init, hd, hu]
    | httpError => simp [plugins_init, hd, hu]
    | otherError => simp [plugins_init, hd, hu]

/-- C9: removing a missing or non-file path is a silent no-op and only
existing regular files are ever deleted: `_remove_plugin` always succeeds and
at most erases its path from the regular files (directories untouched), and
`_remove_plugins` over any path list always succeeds, keeps exactly the files
not listed, and leaves directories untouched. -/
theorem c9_remove_plugin_safe (fs : FS) (path : String) (paths : List String) :
    (∃ fs1 : FS, remove_plugin fs path = Except.ok fs1 ∧ fs1.dirs = fs.dirs ∧
      fs1.files = fs.files.erase path) ∧
    (∃ fs2 : FS, remove_plugins fs paths = Except.ok fs2 ∧ fs2.dirs = fs.dirs ∧
      ∀ q, q ∈ fs2.files ↔ q ∈ fs.files ∧ q ∉ paths) :=
  ⟨⟨FS.mk (fs.files.erase path) fs.dirs, remove_plugin_ok fs path, rfl, rfl⟩,
    remove_plugins_ok paths fs⟩

/-- C10: `install` accepts `None` or an empty string as its plugins argument:
the requested list passed to planning is then exactly the required plugins,
and the two calls are indistinguishable. -/
theorem c10_install_accepts_none_or_empty (env : Env) (fuel : Nat) (fs : FS) :
    install_requested none = REQUIRED_PLUGINS ∧
    install_requested (some "") = REQUIRED_PLUGINS ∧
    install env fuel none fs = install env fuel (some "") fs :=
  ⟨rfl, rfl, rfl⟩
